import Mathlib

/-!
Shallow embedding of the vps-audit audit engine (src/engine.rs), data model
(src/model.rs), reporter aggregation (src/report.rs), CLI exit handling
(src/main.rs), the sshd configuration collector (src/collectors.rs) and the
thirteen registered checks (src/checks/*.rs), together with theorems settling
the specification claims about them.

Modelling conventions:
- Rust `f32`/`f64` arithmetic is modelled with exact rationals (`Rat`); all
  quantities the claims mention are exactly representable.
- Rust strings are Lean `String`s; ASCII-case-insensitive comparison and the
  parsing helpers are embedded directly below.
- The engine's thread/channel machinery is modelled by an explicit outcome
  type (`RunBehavior`) for each check's `run` call: it either completes after
  some wall-clock duration, panics after some duration, or never returns.
  `std::sync::mpsc::Receiver::recv_timeout` yields the sent result iff the
  sender finishes within the budget; a panicking sender drops the channel and
  yields a disconnection error, which the source handles in the same `Err`
  arm as a timeout.  `std::thread::scope` joins every spawned thread before
  returning and re-raises a panic of any joined thread; both behaviours are
  modelled explicitly (`runAll`, `engineElapsed`).
-/

namespace VpsAudit

/-- ASCII lower-casing of one character, as Rust `u8::to_ascii_lowercase`. -/
def asciiLowerChar (c : Char) : Char :=
  if 'A' ≤ c ∧ c ≤ 'Z' then Char.ofNat (c.toNat + 32) else c

/-- ASCII lower-casing of a string (Rust `str::to_ascii_lowercase`). -/
def asciiLower (s : String) : String :=
  String.mk (s.data.map asciiLowerChar)

/-- Rust `str::eq_ignore_ascii_case`. -/
def eqIgnoreAsciiCase (a b : String) : Bool :=
  asciiLower a == asciiLower b

/-- `true` iff the string contains no upper-case ASCII letter, i.e. it is
fixed by ASCII lower-casing. -/
def isAsciiLowercase (s : String) : Bool :=
  s.data.all (fun c => !('A' ≤ c && c ≤ 'Z'))

/-- Helper for `splitOnceChar`: split a character list at the first
occurrence of `sep`. -/
def splitOnceCharAux (sep : Char) : List Char → Option (List Char × List Char)
  | [] => none
  | c :: rest =>
    if c = sep then some ([], rest)
    else
      match splitOnceCharAux sep rest with
      | some (l, r) => some (c :: l, r)
      | none => none

/-- Rust `str::split_once(sep)` for a one-character separator. -/
def splitOnceChar (sep : Char) (s : String) : Option (String × String) :=
  match splitOnceCharAux sep s.data with
  | some (l, r) => some (String.mk l, String.mk r)
  | none => none

/-- Split a character list at every occurrence of `sep` (the result always
has one more segment than there are separators). -/
def splitOnChar (sep : Char) : List Char → List (List Char)
  | [] => [[]]
  | c :: rest =>
    match splitOnChar sep rest with
    | [] => [[]]
    | l :: ls => if c = sep then [] :: l :: ls else (c :: l) :: ls

/-- Rust `str::split(sep)` for a one-character separator. -/
def splitOnCharStr (sep : Char) (s : String) : List String :=
  (splitOnChar sep s.data).map String.mk

/-- Rust `str::trim` (Lean `Char.isWhitespace` covers the whitespace the
audited files contain). -/
def rustTrim (s : String) : String :=
  String.mk (((s.data.dropWhile Char.isWhitespace).reverse.dropWhile Char.isWhitespace).reverse)

/-- Rust `str::starts_with(p)` for a string pattern. -/
def startsWithStr (s p : String) : Bool :=
  p.data.isPrefixOf s.data

/-- Strip one trailing `'\r'` from a line (part of Rust `str::lines`). -/
def stripCr (l : List Char) : List Char :=
  if l.getLast? = some '\r' then l.dropLast else l

/-- Rust `str::lines`: split on `'\n'`, drop a final empty segment, and strip
one trailing `'\r'` from each line. -/
def rustLines (s : String) : List String :=
  let parts := splitOnChar '\n' s.data
  let parts := if parts.getLast? = some [] then parts.dropLast else parts
  parts.map (fun l => String.mk (stripCr l))

/-- Helper for `containsSub`: does `pat` occur as an infix of `l`? -/
def listContainsSub (pat : List Char) : List Char → Bool
  | [] => decide (pat = [])
  | c :: rest => pat.isPrefixOf (c :: rest) || listContainsSub pat rest

/-- Rust `str::contains(pattern)` for a string pattern (substring search). -/
def containsSub (s pat : String) : Bool :=
  listContainsSub pat.data s.data

/-- Rust unsigned-integer string parsing (`str::parse::<uN>` before the range
check): an optional leading `'+'` followed by at least one ASCII digit. -/
def parseNatRust (s : String) : Option Nat :=
  let chars := match s.data with
    | '+' :: rest => rest
    | l => l
  if chars.isEmpty then none
  else if chars.all Char.isDigit then
    some (chars.foldl (fun acc c => acc * 10 + (c.toNat - 48)) 0)
  else none

/-- Rust `str::parse::<u16>`: fails when the value exceeds `u16::MAX`. -/
def parseU16 (s : String) : Option Nat :=
  match parseNatRust s with
  | some n => if n < 65536 then some n else none
  | none => none

/-- Rust `str::parse::<u32>`: fails when the value exceeds `u32::MAX`. -/
def parseU32 (s : String) : Option Nat :=
  match parseNatRust s with
  | some n => if n < 4294967296 then some n else none
  | none => none

/-- `BTreeMap::insert`: replace the value of an existing key, otherwise add
the entry.  (The source only reads the map back through exact-key lookup, so
an association list with replace-on-insert is lookup-equivalent.) -/
def btInsert (m : List (String × String)) (k v : String) : List (String × String) :=
  match m with
  | [] => [(k, v)]
  | (k2, v2) :: rest => if k2 == k then (k2, v) :: rest else (k2, v2) :: btInsert rest k v

/-- `BTreeMap::get` (by exact key). -/
def mapGet (m : List (String × String)) (k : String) : Option String :=
  (m.find? (fun e => e.1 == k)).map (fun e => e.2)

/-- Rust `f32::round` / `f64::round`: round to the nearest integer, halfway
cases away from zero. -/
def roundHalfAway (x : Rat) : Int :=
  if 0 ≤ x then Int.floor (x + 1/2) else Int.ceil (x - 1/2)

/-! ## Data model (src/model.rs) -/

/-- `Status` (src/model.rs): the closed outcome enumeration. -/
inductive Status where
  | pass
  | warn
  | fail
  | skip
deriving DecidableEq, Repr

/-- `Status::is_fail`. -/
def Status.is_fail : Status → Bool
  | .fail => true
  | _ => false

/-- `Status::is_warn`. -/
def Status.is_warn : Status → Bool
  | .warn => true
  | _ => false

/-- A `serde_json::Value` evidence payload: an open, semi-structured tree.
Its contents are never interpreted by the engine or reporter. -/
inductive JsonVal where
  | str (s : String)
  | num (n : Nat)
  | bool (b : Bool)
  | obj (fields : List (String × JsonVal))
  | arr (elems : List JsonVal)

/-- `CheckResult` (src/model.rs). -/
structure CheckResult where
  id : String
  title : String
  categories : List String
  status : Status
  reason : String
  remediation : Option String
  evidence : Option JsonVal

/-! ## Reporter aggregation (src/report.rs) -/

namespace Reporter

/-- `Reporter::counts` (src/report.rs lines 64–70): one `filter(...).count()`
per status. -/
def counts (results : List CheckResult) : Nat × Nat × Nat × Nat :=
  (results.countP (fun r => r.status = .pass),
   results.countP (fun r => r.status = .warn),
   results.countP (fun r => r.status = .fail),
   results.countP (fun r => r.status = .skip))

/-- The per-result scoring contribution of `Reporter::score`'s inner `match`:
Pass = 1, Warn = 0.5, Fail = 0 (the Skip arm is unreachable past the
`continue`). -/
def contribution : Status → Rat
  | .pass => 1
  | .warn => 1/2
  | .fail => 0
  | .skip => 0

/-- The accumulation loop of `Reporter::score`: fold `(total, max)` over the
results, skipping `Skip`. -/
def scoreFold (results : List CheckResult) : Rat × Rat :=
  results.foldl
    (fun acc r =>
      if r.status = .skip then acc
      else (acc.1 + contribution r.status, acc.2 + 1))
    (0, 0)

/-- `Reporter::score` (src/report.rs lines 72–83), with the `f32` arithmetic
modelled as exact rationals; `f32::round` rounds half away from zero.  Every
concrete case the claims mention is exactly representable in `f32`. -/
def score (results : List CheckResult) : Int :=
  if (scoreFold results).2 = 0 then 100
  else roundHalfAway ((scoreFold results).1 / (scoreFold results).2 * 100)

end Reporter

/-- The scorable sub-list of the specification's scoring formula: results
excluding Skip. -/
def scorable (results : List CheckResult) : List CheckResult :=
  results.filter (fun r => r.status ≠ .skip)

/-! ## Execution engine (src/engine.rs) -/

/-- The observable behaviour of one `check.run(&collectors_clone)` call inside
its spawned thread: it returns a result after `dur` seconds, panics after
`dur` seconds, or never returns.  Durations are wall-clock seconds. -/
inductive RunBehavior where
  | completes (dur : Nat) (r : CheckResult)
  | panics (dur : Nat)
  | hangs

/-- One registered `Box<dyn AuditCheck>`: its `id()`, `title()`,
`categories()` and the behaviour of its `run`. -/
structure CheckSpec where
  id : String
  title : String
  categories : List String
  behavior : RunBehavior

/-- The category filter test of `AuditEngine::run_all` (src/engine.rs lines
46–52): with no filter every check is selected; otherwise some wanted string
must equal some check category, ASCII-case-insensitively. -/
def selectedBy (filter : Option (List String)) (cats : List String) : Bool :=
  match filter with
  | none => true
  | some wanted => wanted.any (fun w => cats.any (fun c => eqIgnoreAsciiCase c w))

/-- The fixed per-check budget, `Duration::from_secs(5)` (src/engine.rs
line 42), in seconds. -/
def timeoutSecs : Nat := 5

/-- `rx.recv_timeout(timeout)` (src/engine.rs line 61): `some r` iff the
spawned `run` sends `r` within the budget; a panicking sender disconnects the
channel and a slow or hanging sender times out, both landing in the `Err`
arm (`none`). -/
def recvWithin (timeout : Nat) : RunBehavior → Option CheckResult
  | .completes dur r => if dur ≤ timeout then some r else none
  | .panics _ => none
  | .hangs => none

/-- The synthetic result pushed in the `Err` arm (src/engine.rs lines
63–73). -/
def timeoutResult (c : CheckSpec) : CheckResult :=
  { id := c.id
    title := c.title
    categories := c.categories
    status := .skip
    reason := "Check timed out after " ++ toString timeoutSecs ++ "s"
    remediation := some "Re-run with narrower categories or open an issue if this persists"
    evidence := none }

/-- The result recorded for one dispatched check: the received result on
`Ok`, the synthetic skip on `Err`. -/
def dispatchOne (c : CheckSpec) : CheckResult :=
  match recvWithin timeoutSecs c.behavior with
  | some r => r
  | none => timeoutResult c

/-- The `results` vector as built by the dispatch loop of
`AuditEngine::run_all` (src/engine.rs lines 44–76): unselected checks are
skipped by `continue`, each selected check pushes exactly one entry. -/
def runAllResults (filter : Option (List String)) : List CheckSpec → List CheckResult
  | [] => []
  | c :: rest =>
    if selectedBy filter c.categories then dispatchOne c :: runAllResults filter rest
    else runAllResults filter rest

/-- The checks for which the loop spawns a thread: exactly the selected
ones. -/
def spawnedChecks (filter : Option (List String)) (checks : List CheckSpec) : List CheckSpec :=
  checks.filter (fun c => selectedBy filter c.categories)

/-- Whether a behaviour is a hang (its thread never terminates). -/
def RunBehavior.isHang : RunBehavior → Bool
  | .hangs => true
  | _ => false

/-- Whether a behaviour is a panic. -/
def RunBehavior.isPanic : RunBehavior → Bool
  | .panics _ => true
  | _ => false

/-- How a call to `AuditEngine::run_all` ends, observed by its caller. -/
inductive EngineOutcome where
  | returns (rs : List CheckResult)
  | panicked
  | diverges

/-- `AuditEngine::run_all` (src/engine.rs lines 38–79) as observed by its
caller.  `thread::scope` joins every spawned thread before returning: if a
spawned `run` never terminates the join blocks forever (`diverges`); if all
terminate but one panicked, `thread::scope` re-raises the panic and `run_all`
panics, discarding the collected `results` vector; otherwise the vector built
by the loop is returned. -/
def runAll (filter : Option (List String)) (checks : List CheckSpec) : EngineOutcome :=
  if (spawnedChecks filter checks).any (fun c => c.behavior.isHang) then .diverges
  else if (spawnedChecks filter checks).any (fun c => c.behavior.isPanic) then .panicked
  else .returns (runAllResults filter checks)

/-- The time the loop waits on one check's channel before moving on: the
thread's own duration, capped at the budget (a panicking sender disconnects
at its panic time; a hanging one makes the receiver wait out the full
budget). -/
def loopWait (b : RunBehavior) : Nat :=
  match b with
  | .completes d _ => min d timeoutSecs
  | .panics d => min d timeoutSecs
  | .hangs => timeoutSecs

/-- Wall-clock accounting for `run_all` over the spawned checks.  `t` is the
loop's clock (thread `i` is spawned when the loop reaches it), `maxFin` the
latest thread-termination time seen so far, `anyHang` whether some thread
never terminates.  `thread::scope` returns at the later of loop end and last
thread termination — and never, if some thread hangs (`none` =
unbounded). -/
def elapsedAux (t maxFin : Nat) (anyHang : Bool) : List CheckSpec → Option Nat
  | [] => if anyHang then none else some (max t maxFin)
  | c :: rest =>
    match c.behavior with
    | .completes d _ => elapsedAux (t + min d timeoutSecs) (max maxFin (t + d)) anyHang rest
    | .panics d => elapsedAux (t + min d timeoutSecs) (max maxFin (t + d)) anyHang rest
    | .hangs => elapsedAux (t + timeoutSecs) maxFin true rest

/-- Total wall-clock seconds spent inside `run_all` (`none` = unbounded,
i.e. `run_all` never returns). -/
def engineElapsed (filter : Option (List String)) (checks : List CheckSpec) : Option Nat :=
  elapsedAux 0 0 false (spawnedChecks filter checks)

/-! ## CLI exit handling (src/main.rs) -/

/-- The `--categories` parsing of `main` (src/main.rs lines 54–57): split on
commas, trim, drop empty fragments, keeping the `Option`. -/
def parseCategories (arg : Option String) : Option (List String) :=
  arg.map (fun s => ((splitOnCharStr ',' s).map rustTrim).filter (fun t => t ≠ ""))

/-- The process exit code of `main` (src/main.rs lines 75–84): only under
`--strict` does any `Fail` exit with 2 and any `Warn` (with no `Fail`) with
1; in every other case `main` falls through and the process exits 0. -/
def exitCode (strict : Bool) (results : List CheckResult) : Nat :=
  if strict then
    if results.any (fun r => r.status.is_fail) then 2
    else if results.any (fun r => r.status.is_warn) then 1
    else 0
  else 0

/-! ## Collector: sshd configuration dump (src/collectors.rs) -/

/-- `SshdConfigDump` (src/collectors.rs): the `BTreeMap` is modelled as an
association list with replace-on-insert (lookup-equivalent). -/
structure SshdConfigDump where
  ok : Bool
  values : List (String × String)
  stderr : Option String

/-- The outcome of `Command::new("sshd").arg("-T").output()`: either the
process ran (with an exit status and captured output text), or it could not
be started at all (`Err`, e.g. sshd not installed). -/
inductive CmdOutcome where
  | ran (success : Bool) (stdout : String) (stderr : String)
  | couldNotStart

/-- Fold a per-line key/value parse over lines, inserting into a
`BTreeMap` (the loop shape shared by both branches of
`dump_sshd_config`). -/
def buildMap (lineParse : String → Option (String × String)) (lines : List String) : List (String × String) :=
  lines.foldl
    (fun m line =>
      match lineParse line with
      | some kv => btInsert m kv.1 kv.2
      | none => m)
    []

/-- One line of successful `sshd -T` output (src/collectors.rs lines
115–118): split at the first space, key and value trimmed, the key inserted
verbatim (no case change). -/
def sshdTLine (line : String) : Option (String × String) :=
  (splitOnceChar ' ' line).map (fun kv => (rustTrim kv.1, rustTrim kv.2))

/-- The map built from successful `sshd -T` output (src/collectors.rs lines
113–119). -/
def parseSshdT (stdout : String) : List (String × String) :=
  buildMap sshdTLine (rustLines stdout)

/-- One line of the `/etc/ssh/sshd_config` fallback (src/collectors.rs lines
129–136): skip empty and comment lines, lower-case the rest (Rust
`str::to_lowercase`, modelled character-wise as ASCII lower-casing — the
audited configuration keys are ASCII) and split at the first space. -/
def fallbackLine (rawLine : String) : Option (String × String) :=
  let line := rustTrim rawLine
  if line = "" || startsWithStr line "#" then none
  else
    let lower := asciiLower line
    (splitOnceChar ' ' lower).map (fun kv => (rustTrim kv.1, rustTrim kv.2))

/-- The map built from the `/etc/ssh/sshd_config` fallback
(src/collectors.rs lines 127–137). -/
def parseSshdConfigFile (content : String) : List (String × String) :=
  buildMap fallbackLine (rustLines content)

/-- `dump_sshd_config` (src/collectors.rs lines 109–141) over its two
external inputs: the `sshd -T` command outcome and the optional
`/etc/ssh/sshd_config` file content. -/
def dump_sshd_config (cmd : CmdOutcome) (file : Option String) : Option SshdConfigDump :=
  match cmd with
  | .ran success out errText =>
    if success then some { ok := true, values := parseSshdT out, stderr := none }
    else some { ok := false, values := [], stderr := some errText }
  | .couldNotStart =>
    match file with
    | some content => some { ok := true, values := parseSshdConfigFile content, stderr := none }
    | none => none

/-! ## Checks (src/checks/*.rs)

Each check is embedded as a pure function of the external data its `run`
reads (its slice of the snapshot plus its own ad-hoc file reads, passed as
arguments).  Where the source formats `f64` values into the reason string
(`{:.0}`, `{:.1}`, `{:.2}`, `human_bytes`), the formatted fragments are
passed in as argument strings and the surrounding literal text is embedded
faithfully; `f64` arithmetic used for status thresholds is modelled as exact
rationals. -/

/-- Lookup in the `files_exist` map of the snapshot. -/
def filesGet (m : List (String × Bool)) (k : String) : Option Bool :=
  (m.find? (fun e => e.1 == k)).map (fun e => e.2)

/-- `SshRootLoginCheck::run` (src/checks/ssh.rs lines 12–43). -/
def SshRootLoginCheck.run (sshd : Option SshdConfigDump) : CheckResult :=
  let cats := ["security", "linux", "config"]
  match sshd with
  | some d =>
    if !d.ok then
      { id := "ssh.root_login", title := "SSH root login is disabled", categories := cats
        status := .skip
        reason := "Unable to obtain sshd config: " ++ d.stderr.getD ""
        remediation := some "Ensure OpenSSH server is installed and accessible"
        evidence := none }
    else
      let value := (mapGet d.values "permitrootlogin").getD "prohibit-password"
      let status : Status := if value == "no" || value == "prohibit-password" then .pass else .fail
      let reason := match status with
        | .pass => "PermitRootLogin is \x27" ++ value ++ "\x27"
        | _ => "PermitRootLogin is \x27" ++ value ++ "\x27 (should be \x27no\x27 or \x27prohibit-password\x27)"
      { id := "ssh.root_login", title := "SSH root login is disabled", categories := cats
        status := status
        reason := reason
        remediation := some "Edit sshd_config to set PermitRootLogin no or prohibit-password; then systemctl reload sshd"
        evidence := some (.obj [("permitrootlogin", .str value)]) }
  | none =>
    { id := "ssh.root_login", title := "SSH root login is disabled", categories := cats
      status := .skip, reason := "OpenSSH server configuration not found"
      remediation := none, evidence := none }

/-- `SshPasswordAuthCheck::run` (src/checks/ssh.rs lines 50–65). -/
def SshPasswordAuthCheck.run (sshd : Option SshdConfigDump) : CheckResult :=
  let cats := ["security", "linux", "config"]
  match sshd with
  | some d =>
    if !d.ok then
      { id := "ssh.password_auth", title := "SSH password authentication is disabled"
        categories := cats, status := .skip
        reason := "Unable to obtain sshd config", remediation := none, evidence := none }
    else
      let value := (mapGet d.values "passwordauthentication").getD "yes"
      let status : Status := if value == "no" then .pass else .fail
      let reason := match status with
        | .pass => "PasswordAuthentication is \x27no\x27"
        | _ => "PasswordAuthentication is \x27" ++ value ++ "\x27 (should be \x27no\x27)"
      { id := "ssh.password_auth", title := "SSH password authentication is disabled"
        categories := cats, status := status, reason := reason
        remediation := some "Set PasswordAuthentication no; enforce key-based auth"
        evidence := some (.obj [("passwordauthentication", .str value)]) }
  | none =>
    { id := "ssh.password_auth", title := "SSH password authentication is disabled"
      categories := cats, status := .skip
      reason := "OpenSSH server configuration not found", remediation := none, evidence := none }

/-- `read_unprivileged_start` (src/checks/ssh.rs lines 100–107) over the
optional content of `/proc/sys/net/ipv4/ip_unprivileged_port_start`. -/
def read_unprivileged_start (procContent : Option String) : Option Nat :=
  match procContent with
  | some s => parseU32 (rustTrim s)
  | none => some 1024

/-- `SshPortCheck::run` (src/checks/ssh.rs lines 72–97).  The comparison
`port >= unpriv_start as u16` truncates the `u32` to 16 bits, while the
reason text prints the untruncated value. -/
def SshPortCheck.run (sshd : Option SshdConfigDump) (unprivFile : Option String) : CheckResult :=
  let cats := ["security", "linux", "config"]
  match sshd with
  | some d =>
    if !d.ok then
      { id := "ssh.port", title := "SSH uses a non-default and privileged port"
        categories := cats, status := .skip
        reason := "Unable to obtain sshd config", remediation := none, evidence := none }
    else
      let port_str := (mapGet d.values "port").getD "22"
      let port := (parseU16 port_str).getD 22
      let unpriv_start := (read_unprivileged_start unprivFile).getD 1024
      let status : Status :=
        if port = 22 then .warn
        else if unpriv_start % 65536 ≤ port then .fail
        else .pass
      let reason := match status with
        | .pass => "Using privileged non-default port " ++ toString port ++ " (< " ++ toString unpriv_start ++ ")"
        | .warn => "Using default SSH port 22"
        | _ => "Using unprivileged port " ++ toString port ++ " (>= " ++ toString unpriv_start ++ ")"
      { id := "ssh.port", title := "SSH uses a non-default and privileged port"
        categories := cats, status := status, reason := reason
        remediation := some ("Choose a port < " ++ toString unpriv_start ++ " and not 22; update sshd_config and reload")
        evidence := some (.obj [("port", .num port)]) }
  | none =>
    { id := "ssh.port", title := "SSH uses a non-default and privileged port"
      categories := cats, status := .skip
      reason := "OpenSSH server configuration not found", remediation := none, evidence := none }

/-- `RebootRequiredCheck::run` (src/checks/system.rs lines 13–18). -/
def RebootRequiredCheck.run (files_exist : List (String × Bool)) : CheckResult :=
  let reboot_required := (filesGet files_exist "/var/run/reboot-required").getD false
  { id := "system.reboot_required", title := "System does not require reboot"
    categories := ["linux", "performance", "security"]
    status := if reboot_required then .warn else .pass
    reason := if reboot_required then "System indicates a reboot is required" else "No reboot required"
    remediation := some "Reboot to apply pending updates"
    evidence := none }

/-- The used-percentage formula shared by the disk and memory checks
(`(1.0 - (avail / total)) * 100.0`, guarded by `total > 0.0`). -/
def usedPct (total avail : Nat) : Rat :=
  if (total : Rat) > 0 then (1 - (avail : Rat) / (total : Rat)) * 100 else 0

/-- The `< 50 / < 80` status thresholds shared by the disk and memory
checks. -/
def pctStatus (p : Rat) : Status :=
  if p < 50 then .pass else if p < 80 then .warn else .fail

/-- `DiskUsageCheck::run` (src/checks/system.rs lines 25–32).  `pctS`,
`totalHuman` and `availHuman` are the formatted fragments (`{:.0}` and
`human_bytes`) of the reason string. -/
def DiskUsageCheck.run (total avail : Nat) (pctS totalHuman availHuman : String) : CheckResult :=
  { id := "system.disk_usage", title := "Disk usage is healthy"
    categories := ["performance", "linux"]
    status := pctStatus (usedPct total avail)
    reason := "Disk used: " ++ pctS ++ "% (total: " ++ totalHuman ++ ", available: " ++ availHuman ++ ")"
    remediation := some "Clean unused files, logs, images; consider expanding disk"
    evidence := none }

/-- `MemoryUsageCheck::run` (src/checks/system.rs lines 39–48): `meminfo` is
the parsed `(MemTotal, MemAvailable)` of `/proc/meminfo` when available,
otherwise the snapshot total with half of it assumed available. -/
def MemoryUsageCheck.run (meminfo : Option (Nat × Nat)) (ctxTotalMem : Nat)
    (pctS totalHuman availHuman : String) : CheckResult :=
  let ta := meminfo.getD (ctxTotalMem, ctxTotalMem / 2)
  { id := "system.memory_usage", title := "Memory usage is healthy"
    categories := ["performance", "linux"]
    status := pctStatus (usedPct ta.1 ta.2)
    reason := "Memory used: " ++ pctS ++ "% (total: " ++ totalHuman ++ ", available: " ++ availHuman ++ ")"
    remediation := some "Reduce memory usage, tune services, or increase RAM/swap"
    evidence := none }

/-- `CpuUsageCheck::run` (src/checks/system.rs lines 55–63): `load1S` and
`ratioS` are the `{:.2}` formatted fragments of the reason. -/
def CpuUsageCheck.run (load1 : Option Rat) (cores : Nat) (load1S ratioS : String) : CheckResult :=
  let l := load1.getD 0
  let load_ratio := if (cores : Rat) > 0 then l / (cores : Rat) else 0
  { id := "system.cpu_usage", title := "CPU usage is healthy"
    categories := ["performance", "linux"]
    status := if load_ratio < 1/2 then .pass else if load_ratio < 9/10 then .warn else .fail
    reason := "Load(1m): " ++ load1S ++ ", cores: " ++ toString cores ++ ", ratio: " ++ ratioS
    remediation := some "Investigate high CPU processes, tune services, or scale resources"
    evidence := none }

/-- `SudoLoggingCheck::run` (src/checks/policy.rs lines 12–19): `sudoers` is
the content of `/etc/sudoers` when readable (`unwrap_or_default` maps a read
failure to the empty string). -/
def SudoLoggingCheck.run (sudoers : Option String) : CheckResult :=
  let content := sudoers.getD ""
  let enabled := (rustLines content).any
    (fun l => startsWithStr (rustTrim l) "Defaults" && containsSub l "logfile")
  { id := "policy.sudo_logging", title := "Sudo logging is enabled"
    categories := ["security", "linux"]
    status := if enabled then .pass else .fail
    reason := if enabled then "Found Defaults logfile in /etc/sudoers"
              else "No Defaults logfile directive found in /etc/sudoers"
    remediation := some "Add \x27Defaults logfile=/var/log/sudo.log\x27 to /etc/sudoers via visudo"
    evidence := none }

/-- The `minlen` scan of `PasswordPolicyCheck::run` (src/checks/policy.rs
lines 29–37): the flag is set iff some line, with its `#` comment stripped
and trimmed, starts with `minlen` and carries `= v` with `v` parsing to at
least 12. -/
def minlenOk (content : String) : Bool :=
  (rustLines content).any (fun rawLine =>
    let line := rustTrim ((splitOnCharStr '#' rawLine).headD "")
    startsWithStr line "minlen" &&
      match splitOnceChar '=' line with
      | some kv => decide (12 ≤ (parseU32 (rustTrim kv.2)).getD 0)
      | none => false)

/-- `PasswordPolicyCheck::run` (src/checks/policy.rs lines 26–41). -/
def PasswordPolicyCheck.run (pwquality : Option String) : CheckResult :=
  let minlen_ok := minlenOk (pwquality.getD "")
  { id := "policy.password_policy", title := "Strong password policy is enforced"
    categories := ["security", "linux"]
    status := if minlen_ok then .pass else .fail
    reason := if minlen_ok then "minlen >= 12 configured" else "minlen < 12 or no policy configured"
    remediation := some "Configure /etc/security/pwquality.conf with \x27minlen=12\x27 or higher"
    evidence := none }

/-- `SuidFilesCheck::run` (src/checks/files.rs lines 12–76).  The
filesystem walk and its `Instant`-based budget are abstracted into the three
values they produce — the visited-file count, the suspicious-file count and
the over-budget flag; the classification and reporting code below them is
embedded faithfully (`max_files` is 100000, the budget 5 seconds). -/
def SuidFilesCheck.run (suspicious visited : Nat) (elapsedOverBudget : Bool) : CheckResult :=
  let timed_out := elapsedOverBudget || visited ≥ 100000
  { id := "files.suid_suspicious", title := "No suspicious SUID files exist outside standard locations"
    categories := ["security", "linux"]
    status := if suspicious = 0 && !timed_out then .pass else .warn
    reason :=
      if suspicious = 0 && !timed_out then "No suspicious SUID files found"
      else if timed_out then
        "Partial scan (" ++ toString visited ++ " files, ~" ++ toString (5 : Nat)
          ++ "s budget) found " ++ toString suspicious ++ " potential suspicious SUID files"
      else "Found " ++ toString suspicious ++ " potential suspicious SUID files"
    remediation := some "Investigate SUID files; remove SUID bit if unnecessary"
    evidence := none }

/-- `PortInfo` (src/checks/network.rs). -/
structure PortInfo where
  port : Nat
  proto : String
  public : Bool

/-- `ListeningPortsCheck::run` (src/checks/network.rs lines 12–22): `ports`
is the deduplicated listening-socket list produced by
`collect_listening_ports` (the `/proc/net/*` parsing is abstracted into this
list). -/
def ListeningPortsCheck.run (ports : List PortInfo) : CheckResult :=
  let total := ports.length
  let internet_facing := ports.countP (fun p => p.public)
  { id := "network.listening_ports", title := "Public listening ports are limited"
    categories := ["security", "linux", "network"]
    status :=
      if total < 10 && internet_facing < 3 then .pass
      else if total < 20 && internet_facing < 5 then .warn
      else .fail
    reason := "Listening ports total: " ++ toString total ++ ", public: " ++ toString internet_facing
    remediation := some "Close unnecessary ports; bind services to localhost; use a firewall"
    evidence := some (.obj [("ports", .arr (ports.map (fun p =>
      .obj [("port", .num p.port), ("proto", .str p.proto), ("public", .bool p.public)])))]) }

/-- `FirewallPresenceCheck::run` (src/checks/firewall.rs lines 12–31) over
the existence of the probed paths. -/
def FirewallPresenceCheck.run (nftConf nftDir ufwConf iptDir nftUnitLib nftUnitEtc ufwUnitLib ufwUnitEtc : Bool) : CheckResult :=
  let nft_present := nftConf || nftDir
  let ufw_present := ufwConf
  let ipt_present := iptDir
  let nft_unit := nftUnitLib || nftUnitEtc
  let ufw_unit := ufwUnitLib || ufwUnitEtc
  let any_present := nft_present || ufw_present || ipt_present || nft_unit || ufw_unit
  { id := "firewall.presence", title := "A firewall is installed and configured"
    categories := ["security", "linux", "network"]
    status := if any_present then .warn else .fail
    reason := if any_present then "Firewall tooling detected (verify active rules)"
              else "No firewall tooling detected"
    remediation := some "Install and enable nftables (preferred) or UFW; define a default-deny inbound policy with explicit allows"
    evidence := some (.obj [("nftables", .bool (nft_present || nft_unit)),
                            ("ufw", .bool (ufw_present || ufw_unit)),
                            ("iptables", .bool ipt_present)]) }

/-- `NftablesRulesCheck::run` (src/checks/firewall.rs lines 40–71):
`content` is the concatenation of the nftables configuration files found
(the directory traversal is abstracted into this string; empty means none
found). -/
def NftablesRulesCheck.run (content : String) : CheckResult :=
  let cats := ["security", "linux", "network"]
  if content = "" then
    { id := "firewall.nftables_rules"
      title := "nftables has default-deny inbound policy with explicit allows"
      categories := cats, status := .skip
      reason := "No nftables configuration files found"
      remediation := some "Create /etc/nftables.conf with a default deny policy"
      evidence := none }
  else
    let has_input_chain := containsSub content "chain input"
    let has_default_drop :=
      (rustLines content).any (fun l => containsSub l "type filter hook input" && containsSub l "policy drop")
        || (rustLines content).any (fun l => containsSub l "chain input" && containsSub l "policy drop")
    let has_accept_ssh := containsSub content "tcp dport 22 accept"
        || containsSub content "ct state established,related accept"
    let status : Status := if has_input_chain && has_default_drop then .pass else .warn
    { id := "firewall.nftables_rules"
      title := "nftables has default-deny inbound policy with explicit allows"
      categories := cats, status := status
      reason := if status = .pass then "Found input chain with policy drop"
                else "Default drop policy not clearly configured in nftables"
      remediation := some "Define \x27chain input \x7b type filter hook input priority 0; policy drop; ... \x7d\x27 with explicit allows"
      evidence := some (.obj [("input_chain", .bool has_input_chain),
                              ("default_drop", .bool has_default_drop),
                              ("has_accept_examples", .bool has_accept_ssh)]) }

/-! ## Supporting lemmas -/

theorem char_toNat_ofNat_small (n : Nat) (h : n < 55296) : (Char.ofNat n).toNat = n := by
  unfold Char.ofNat
  rw [dif_pos (Or.inl h)]
  simp [Char.ofNatAux, Char.toNat, UInt32.toNat, BitVec.toNat_ofNatLt]

theorem charLe_toNat {a b : Char} : a ≤ b ↔ a.toNat ≤ b.toNat := by
  rw [Char.le_def, UInt32.le_def, BitVec.le_def]
  rfl

theorem asciiLowerChar_not_upper_prop (c : Char) :
    ¬(65 ≤ (asciiLowerChar c).toNat ∧ (asciiLowerChar c).toNat ≤ 90) := by
  unfold asciiLowerChar
  by_cases h : 'A' ≤ c ∧ c ≤ 'Z'
  · rw [if_pos h]
    have h1 : 65 ≤ c.toNat := charLe_toNat.mp h.1
    have h2 : c.toNat ≤ 90 := charLe_toNat.mp h.2
    rw [char_toNat_ofNat_small (c.toNat + 32) (by omega)]
    omega
  · rw [if_neg h]
    intro hc
    exact h ⟨charLe_toNat.mpr hc.1, charLe_toNat.mpr hc.2⟩

theorem asciiLowerChar_not_upper (c : Char) :
    (!('A' ≤ asciiLowerChar c && asciiLowerChar c ≤ 'Z')) = true := by
  have hp := asciiLowerChar_not_upper_prop c
  simp only [Bool.not_eq_true', Bool.and_eq_false_iff, decide_eq_false_iff_not]
  by_cases hA : 'A' ≤ asciiLowerChar c
  · right
    intro hZ
    exact hp ⟨charLe_toNat.mp hA, charLe_toNat.mp hZ⟩
  · left
    exact hA

theorem asciiLower_is_lowercase (s : String) : isAsciiLowercase (asciiLower s) = true := by
  unfold isAsciiLowercase asciiLower
  rw [List.all_eq_true]
  intro c hc
  rcases List.mem_map.mp hc with ⟨c0, _, rfl⟩
  exact asciiLowerChar_not_upper c0

theorem mem_of_isAsciiLowercase {s : String} {c : Char}
    (hs : isAsciiLowercase s = true) (hc : c ∈ s.data) :
    (!('A' ≤ c && c ≤ 'Z')) = true := by
  unfold isAsciiLowercase at hs
  exact List.all_eq_true.mp hs c hc

theorem splitOnceCharAux_subset_left (sep : Char) (l pre post : List Char)
    (h : splitOnceCharAux sep l = some (pre, post)) : ∀ c ∈ pre, c ∈ l := by
  induction l generalizing pre post with
  | nil => simp [splitOnceCharAux] at h
  | cons a rest ih =>
    unfold splitOnceCharAux at h
    by_cases ha : a = sep
    · rw [if_pos ha] at h
      cases h
      simp
    · rw [if_neg ha] at h
      cases hr : splitOnceCharAux sep rest with
      | none => rw [hr] at h; cases h
      | some pr =>
        rw [hr] at h
        cases h
        intro c hc
        rcases List.mem_cons.mp hc with rfl | hc
        · exact List.mem_cons_self _ _
        · exact List.mem_cons_of_mem _ (ih pr.1 pr.2 (by rw [hr]) c hc)

theorem splitOnceChar_subset_left (sep : Char) (s : String) (kv : String × String)
    (h : splitOnceChar sep s = some kv) : ∀ c ∈ kv.1.data, c ∈ s.data := by
  unfold splitOnceChar at h
  cases haux : splitOnceCharAux sep s.data with
  | none => rw [haux] at h; cases h
  | some pr =>
    rw [haux] at h
    cases h
    exact splitOnceCharAux_subset_left sep s.data pr.1 pr.2 haux

theorem rustTrim_subset (s : String) : ∀ c ∈ (rustTrim s).data, c ∈ s.data := by
  intro c hc
  unfold rustTrim at hc
  simp only [String.data] at hc
  have h1 := List.mem_reverse.mp hc
  have h2 := (List.dropWhile_sublist Char.isWhitespace).subset h1
  have h3 := List.mem_reverse.mp h2
  exact (List.dropWhile_sublist Char.isWhitespace).subset h3

theorem isAsciiLowercase_of_subset {s t : String}
    (hsub : ∀ c ∈ t.data, c ∈ s.data) (hs : isAsciiLowercase s = true) :
    isAsciiLowercase t = true := by
  unfold isAsciiLowercase
  rw [List.all_eq_true]
  exact fun c hc => mem_of_isAsciiLowercase hs (hsub c hc)

theorem mem_btInsert (m : List (String × String)) (k v : String) (kv : String × String)
    (h : kv ∈ btInsert m k v) : kv.1 = k ∨ kv ∈ m := by
  induction m with
  | nil =>
    unfold btInsert at h
    rw [List.mem_singleton] at h
    subst h
    exact Or.inl rfl
  | cons e rest ih =>
    unfold btInsert at h
    by_cases he : e.1 == k
    · rw [if_pos he] at h
      rcases List.mem_cons.mp h with rfl | h
      · exact Or.inl (by simpa using he)
      · exact Or.inr (List.mem_cons_of_mem _ h)
    · rw [if_neg (by simpa using he)] at h
      rcases List.mem_cons.mp h with rfl | h
      · exact Or.inr (List.mem_cons_self _ _)
      · rcases ih h with h1 | h1
        · exact Or.inl h1
        · exact Or.inr (List.mem_cons_of_mem _ h1)

theorem buildMap_keys (lineParse : String → Option (String × String)) (P : String → Prop)
    (hline : ∀ line kv, lineParse line = some kv → P kv.1) (lines : List String)
    (acc : List (String × String)) (hacc : ∀ kv ∈ acc, P kv.1) :
    ∀ kv ∈ lines.foldl
      (fun m line =>
        match lineParse line with
        | some kv => btInsert m kv.1 kv.2
        | none => m)
      acc, P kv.1 := by
  induction lines generalizing acc with
  | nil => exact hacc
  | cons l rest ih =>
    rw [List.foldl_cons]
    apply ih
    cases hl : lineParse l with
    | none => simpa [hl] using hacc
    | some kv0 =>
      simp only [hl]
      intro kv hkv
      rcases mem_btInsert _ _ _ _ hkv with h1 | h1
      · rw [h1]
        exact hline l kv0 hl
      · exact hacc kv h1

theorem fallbackLine_key_lowercase (line : String) (kv : String × String)
    (h : fallbackLine line = some kv) : isAsciiLowercase kv.1 = true := by
  unfold fallbackLine at h
  by_cases hskip : rustTrim line = "" || startsWithStr (rustTrim line) "#"
  · rw [if_pos hskip] at h; cases h
  · rw [if_neg hskip] at h
    simp only [Option.map_eq_some'] at h
    obtain ⟨kv0, hsp, hkv⟩ := h
    subst hkv
    have hlow := asciiLower_is_lowercase (rustTrim line)
    have hsub := splitOnceChar_subset_left _ _ _ hsp
    have hk : isAsciiLowercase kv0.1 = true := isAsciiLowercase_of_subset hsub hlow
    exact isAsciiLowercase_of_subset (rustTrim_subset kv0.1) hk

theorem parseSshdConfigFile_keys_lowercase (content : String) :
    ∀ kv ∈ parseSshdConfigFile content, isAsciiLowercase kv.1 = true := by
  unfold parseSshdConfigFile buildMap
  exact buildMap_keys fallbackLine (fun k => isAsciiLowercase k = true)
    (fun line kv h => fallbackLine_key_lowercase line kv h) (rustLines content) [] (by simp)

/-! ## Claim C9 -/

/-- C9, counterexample: in the `sshd -T` branch of `dump_sshd_config`, keys
are inserted verbatim, not lower-cased: on command output
`"PermitRootLogin no"` the resulting map holds the key `"PermitRootLogin"`,
which is not lower-cased.  (The fallback branch does lower-case.) -/
theorem sshdT_branch_inserts_key_verbatim :
    dump_sshd_config (.ran true "PermitRootLogin no" "") none
      = some { ok := true, values := [("PermitRootLogin", "no")], stderr := none }
    ∧ isAsciiLowercase "PermitRootLogin" = false := by
  constructor <;> rfl

/-- C9, amended: every key inserted by the sshd_config-file fallback branch
of `dump_sshd_config` is lower-cased (the `sshd -T` branch inserts keys
trimmed but with their case preserved), and failure to obtain the
configuration is represented as a value: a dump with `ok = false` carrying
the stderr diagnostic when the command ran unsuccessfully, and absence of
the dump (`none`) when neither source is available — never an error. -/
theorem dump_sshd_config_amended_spec :
    (∀ content : String, ∀ kv ∈ parseSshdConfigFile content, isAsciiLowercase kv.1 = true)
    ∧ (∀ out errText : String, ∀ file : Option String,
        dump_sshd_config (.ran false out errText) file
          = some { ok := false, values := [], stderr := some errText })
    ∧ dump_sshd_config .couldNotStart none = none
    ∧ (∀ content : String,
        dump_sshd_config .couldNotStart (some content)
          = some { ok := true, values := parseSshdConfigFile content, stderr := none }) := by
  refine ⟨parseSshdConfigFile_keys_lowercase, fun out errText file => rfl, rfl, fun content => rfl⟩

/-- C9, witness: `dump_sshd_config_amended_spec` applied to the concrete
fallback content `"PermitRootLogin yes"`, whose parsed key is the
lower-cased `"permitrootlogin"`. -/
theorem dump_sshd_config_amended_spec_witness :
    (("permitrootlogin", "yes") ∈ parseSshdConfigFile "PermitRootLogin yes")
    ∧ isAsciiLowercase "permitrootlogin" = true :=
  ⟨by decide, dump_sshd_config_amended_spec.1 "PermitRootLogin yes" ("permitrootlogin", "yes") (by decide)⟩

/-! ## Claims C5 and C6: reporter aggregation -/

/-- A minimal result value used for concrete instances (only the status
matters to `counts` and `score`). -/
def mkRes (s : Status) : CheckResult :=
  { id := "x", title := "t", categories := [], status := s, reason := "r"
    remediation := none, evidence := none }

theorem scoreFold_go (L : List CheckResult) (t m : Rat) :
    L.foldl
      (fun acc r =>
        if r.status = .skip then acc
        else (acc.1 + Reporter.contribution r.status, acc.2 + 1))
      (t, m)
      = (t + ((scorable L).map (fun r => Reporter.contribution r.status)).sum,
         m + ((scorable L).length : Rat)) := by
  induction L generalizing t m with
  | nil => simp [scorable]
  | cons r rest ih =>
    by_cases h : r.status = .skip
    · rw [List.foldl_cons, if_pos h]
      rw [ih t m]
      simp [scorable, List.filter_cons, h]
    · rw [List.foldl_cons, if_neg h]
      rw [ih]
      have : scorable (r :: rest) = r :: scorable rest := by
        simp [scorable, List.filter_cons, h]
      rw [this]
      simp only [List.map_cons, List.sum_cons, List.length_cons, Prod.mk.injEq]
      constructor
      · ring
      · push_cast
        ring

theorem scoreFold_eq (L : List CheckResult) :
    Reporter.scoreFold L
      = (((scorable L).map (fun r => Reporter.contribution r.status)).sum,
         ((scorable L).length : Rat)) := by
  unfold Reporter.scoreFold
  rw [scoreFold_go]
  simp

theorem score_formula (L : List CheckResult) :
    Reporter.score L =
      if (scorable L).length = 0 then 100
      else roundHalfAway
        (100 * ((scorable L).map (fun r => Reporter.contribution r.status)).sum
          / ((scorable L).length : Rat)) := by
  unfold Reporter.score
  simp only [scoreFold_eq, Nat.cast_eq_zero]
  by_cases h : (scorable L).length = 0
  · simp [h]
  · rw [if_neg h, if_neg h]
    congr 1
    ring

theorem contribution_nonneg (s : Status) : 0 ≤ Reporter.contribution s := by
  cases s <;> norm_num [Reporter.contribution]

theorem contribution_le_one (s : Status) : Reporter.contribution s ≤ 1 := by
  cases s <;> norm_num [Reporter.contribution]

theorem contribSum_bounds (l : List CheckResult) :
    0 ≤ (l.map (fun r => Reporter.contribution r.status)).sum
    ∧ (l.map (fun r => Reporter.contribution r.status)).sum ≤ (l.length : Rat) := by
  induction l with
  | nil => simp
  | cons r rest ih =>
    simp only [List.map_cons, List.sum_cons, List.length_cons]
    have h0 := contribution_nonneg r.status
    have h1 := contribution_le_one r.status
    constructor
    · linarith [ih.1]
    · push_cast
      linarith [ih.2]

theorem score_bounds (L : List CheckResult) :
    0 ≤ Reporter.score L ∧ Reporter.score L ≤ 100 := by
  rw [score_formula]
  by_cases h : (scorable L).length = 0
  · simp [h]
  · rw [if_neg h]
    have hlen : (0 : Rat) < ((scorable L).length : Rat) :=
      Nat.cast_pos.mpr (Nat.pos_of_ne_zero h)
    obtain ⟨h0, h1⟩ := contribSum_bounds (scorable L)
    have hx0 : 0 ≤ 100 * ((scorable L).map (fun r => Reporter.contribution r.status)).sum
        / ((scorable L).length : Rat) := by positivity
    have hx1 : 100 * ((scorable L).map (fun r => Reporter.contribution r.status)).sum
        / ((scorable L).length : Rat) ≤ 100 := by
      rw [div_le_iff hlen]
      linarith
    unfold roundHalfAway
    rw [if_pos hx0]
    constructor
    · exact Int.le_floor.mpr (by push_cast; linarith)
    · have hlt : Int.floor (100 * ((scorable L).map (fun r => Reporter.contribution r.status)).sum
          / ((scorable L).length : Rat) + 1/2) < 101 := Int.floor_lt.mpr (by push_cast; linarith)
      omega

theorem scorable_idem (L : List CheckResult) : scorable (scorable L) = scorable L := by
  simp [scorable, List.filter_filter]

theorem scorable_of_all_skip (L : List CheckResult) :
    scorable (L.filter (fun r => r.status = .skip)) = [] := by
  induction L with
  | nil => rfl
  | cons r rest ih =>
    by_cases h : r.status = .skip
    · simpa [scorable, List.filter_cons, h] using ih
    · simpa [scorable, List.filter_cons, h] using ih

/-- C5: `Reporter::score` returns an integer in `[0,100]`; Skip results are
excluded from scoring (filtering them out does not change the score, and an
all-Skip list scores 100); otherwise Pass contributes 1, Warn 1/2, Fail 0
and the score is `round(100 × sum / count)` over the non-Skip results with
rounding half away from zero; in particular `score([]) = 100`,
`score([Pass]) = 100`, `score([Fail]) = 0`, `score([Pass, Fail]) = 50`,
`score([Warn]) = 50`, `score([Skip]) = 100`.  (The source's `f32` arithmetic
is modelled as exact rationals; every case above is exact in `f32`.) -/
theorem score_spec (L : List CheckResult) :
    (0 ≤ Reporter.score L ∧ Reporter.score L ≤ 100)
    ∧ Reporter.score (scorable L) = Reporter.score L
    ∧ Reporter.score L =
        (if (scorable L).length = 0 then 100
         else roundHalfAway
           (100 * ((scorable L).map (fun r => Reporter.contribution r.status)).sum
             / ((scorable L).length : Rat)))
    ∧ Reporter.score (L.filter (fun r => r.status = .skip)) = 100
    ∧ Reporter.score [] = 100
    ∧ Reporter.score [mkRes .pass] = 100
    ∧ Reporter.score [mkRes .fail] = 0
    ∧ Reporter.score [mkRes .pass, mkRes .fail] = 50
    ∧ Reporter.score [mkRes .warn] = 50
    ∧ Reporter.score [mkRes .skip] = 100 := by
  refine ⟨score_bounds L, ?_, score_formula L, ?_, ?_, ?_, ?_, ?_, ?_, ?_⟩
  · rw [score_formula, score_formula, scorable_idem]
  · rw [score_formula, scorable_of_all_skip]
    rfl
  all_goals
    simp +decide [Reporter.score, Reporter.scoreFold, Reporter.contribution, roundHalfAway,
      mkRes, List.foldl] <;> norm_num

theorem countP_status_partition (L : List CheckResult) :
    L.countP (fun r => r.status = .pass) + L.countP (fun r => r.status = .warn)
      + L.countP (fun r => r.status = .fail) + L.countP (fun r => r.status = .skip)
      = L.length := by
  induction L with
  | nil => rfl
  | cons r rest ih =>
    simp only [List.countP_cons, List.length_cons]
    cases h : r.status <;> simp [h] <;> omega

theorem counts_partition (L : List CheckResult) :
    (Reporter.counts L).1 + (Reporter.counts L).2.1 + (Reporter.counts L).2.2.1
      + (Reporter.counts L).2.2.2 = L.length :=
  countP_status_partition L

/-- C6: `Reporter::counts` partitions any result list exactly by status
(`pass + warn + fail + skip = len`) and is invariant under permutation of
the list. -/
theorem counts_spec (L L2 : List CheckResult) (hperm : L.Perm L2) :
    ((Reporter.counts L).1 + (Reporter.counts L).2.1 + (Reporter.counts L).2.2.1
      + (Reporter.counts L).2.2.2 = L.length)
    ∧ Reporter.counts L = Reporter.counts L2 := by
  refine ⟨counts_partition L, ?_⟩
  unfold Reporter.counts
  rw [hperm.countP_eq, hperm.countP_eq, hperm.countP_eq, hperm.countP_eq]

/-- C6, witness: `counts_spec` applied to the two-element list
`[Pass, Fail]` and its swap. -/
theorem counts_spec_witness :
    ((Reporter.counts [mkRes .pass, mkRes .fail]).1
      + (Reporter.counts [mkRes .pass, mkRes .fail]).2.1
      + (Reporter.counts [mkRes .pass, mkRes .fail]).2.2.1
      + (Reporter.counts [mkRes .pass, mkRes .fail]).2.2.2 = 2)
    ∧ Reporter.counts [mkRes .pass, mkRes .fail] = Reporter.counts [mkRes .fail, mkRes .pass] :=
  counts_spec [mkRes .pass, mkRes .fail] [mkRes .fail, mkRes .pass]
    (List.Perm.swap (mkRes .fail) (mkRes .pass) [])

/-! ## Engine lemmas and claims C1–C4, C10 -/

theorem runAllResults_eq_map (filter : Option (List String)) (checks : List CheckSpec) :
    runAllResults filter checks = (spawnedChecks filter checks).map dispatchOne := by
  induction checks with
  | nil => rfl
  | cons c rest ih =>
    by_cases h : selectedBy filter c.categories
    · simpa [runAllResults, spawnedChecks, List.filter_cons, h] using ih
    · simpa [runAllResults, spawnedChecks, List.filter_cons, h] using ih

theorem dispatchOne_id (c : CheckSpec)
    (h : ∀ d r, c.behavior = .completes d r → r.id = c.id) :
    (dispatchOne c).id = c.id := by
  unfold dispatchOne recvWithin
  cases hb : c.behavior with
  | completes d r =>
    by_cases hd : d ≤ timeoutSecs
    · simpa [hd] using h d r hb
    · simp [hd, timeoutResult]
  | panics d => simp [timeoutResult]
  | hangs => simp [timeoutResult]

theorem eq_of_countP_one {α : Type} (l : List α) (p : α → Bool) (h : l.countP p = 1)
    (a b : α) (ha : a ∈ l) (hb : b ∈ l) (hpa : p a = true) (hpb : p b = true) : a = b := by
  rw [List.countP_eq_length_filter] at h
  obtain ⟨x, hx⟩ := List.length_eq_one.mp h
  have ha2 : a ∈ l.filter p := List.mem_filter.mpr ⟨ha, hpa⟩
  have hb2 : b ∈ l.filter p := List.mem_filter.mpr ⟨hb, hpb⟩
  rw [hx, List.mem_singleton] at ha2 hb2
  rw [ha2, hb2]

theorem countP_filter_le {α : Type} (l : List α) (p q : α → Bool) :
    (l.filter q).countP p ≤ l.countP p := by
  induction l with
  | nil => simp
  | cons a rest ih =>
    rw [List.filter_cons, List.countP_cons]
    by_cases hq : q a
    · rw [if_pos hq, List.countP_cons]
      by_cases hp : p a <;> simp [hp] <;> omega
    · rw [if_neg hq]
      by_cases hp : p a <;> simp [hp] <;> omega

/-- C4: the dispatch loop of `run_all` produces exactly one result per
selected check, in registration order (the results list is the image of the
selected sub-list, in order); a check is selected iff the filter is absent
or its category set has a non-empty ASCII-case-insensitive intersection
with the wanted set; excluded checks produce no result (every result comes
from a selected check); and whenever every selected check completes,
`run_all` returns exactly this list. -/
theorem run_all_selection_spec (filter : Option (List String)) (checks : List CheckSpec) :
    runAllResults filter checks = (spawnedChecks filter checks).map dispatchOne
    ∧ (∀ cats : List String, selectedBy filter cats = true ↔
        (filter = none ∨ ∃ w ∈ filter.getD [], ∃ c ∈ cats, asciiLower c = asciiLower w))
    ∧ (∀ r ∈ runAllResults filter checks,
        ∃ c ∈ checks, selectedBy filter c.categories = true ∧ r = dispatchOne c)
    ∧ ((spawnedChecks filter checks).all
          (fun c => !c.behavior.isHang && !c.behavior.isPanic) = true →
        runAll filter checks = .returns (runAllResults filter checks)) := by
  refine ⟨runAllResults_eq_map filter checks, ?_, ?_, ?_⟩
  · intro cats
    cases filter with
    | none => simp [selectedBy]
    | some wanted =>
      simp only [selectedBy, List.any_eq_true, eqIgnoreAsciiCase, beq_iff_eq,
        Option.getD_some]
      constructor
      · rintro ⟨w, hw, c, hc, h⟩
        exact Or.inr ⟨w, hw, c, hc, h⟩
      · rintro (h | ⟨w, hw, c, hc, h⟩)
        · cases h
        · exact ⟨w, hw, c, hc, h⟩
  · intro r hr
    rw [runAllResults_eq_map] at hr
    rcases List.mem_map.mp hr with ⟨c, hc, rfl⟩
    rcases List.mem_filter.mp hc with ⟨hmem, hsel⟩
    exact ⟨c, hmem, hsel, rfl⟩
  · intro hall
    unfold runAll
    rw [List.all_eq_true] at hall
    have h1 : (spawnedChecks filter checks).any (fun c => c.behavior.isHang) = false := by
      rw [List.any_eq_false]
      intro c hc
      have := hall c hc
      simp only [Bool.and_eq_true, Bool.not_eq_true'] at this
      simp [this.1]
    have h2 : (spawnedChecks filter checks).any (fun c => c.behavior.isPanic) = false := by
      rw [List.any_eq_false]
      intro c hc
      have := hall c hc
      simp only [Bool.and_eq_true, Bool.not_eq_true'] at this
      simp [this.2]
    rw [h1, h2]
    rfl

/-- A result a concrete passing check returns. -/
def resB : CheckResult :=
  { id := "fw2", title := "B", categories := ["security"], status := .pass
    reason := "ok", remediation := none, evidence := none }

/-- A concrete check whose `run` completes immediately with `resB`. -/
def chkReturnsPass : CheckSpec :=
  { id := "fw2", title := "B", categories := ["security"], behavior := .completes 0 resB }

/-- A concrete check in another category, completing immediately. -/
def chkOther : CheckSpec :=
  { id := "perf1", title := "P", categories := ["performance"]
    behavior := .completes 0 (mkRes .warn) }

/-- C4, witness: `run_all_selection_spec` at the concrete filter
`["SECURITY"]` over two checks, of which only the first is selected
(upper-case wanted string matches its lower-case category); the run returns
exactly its result. -/
theorem run_all_selection_spec_witness :
    runAll (some ["SECURITY"]) [chkReturnsPass, chkOther]
      = .returns (runAllResults (some ["SECURITY"]) [chkReturnsPass, chkOther])
    ∧ runAllResults (some ["SECURITY"]) [chkReturnsPass, chkOther] = [resB]
    ∧ selectedBy (some ["SECURITY"]) chkOther.categories = false :=
  ⟨(run_all_selection_spec (some ["SECURITY"]) [chkReturnsPass, chkOther]).2.2.2 (by decide),
   rfl, by decide⟩

/-- A concrete check whose `run` panics immediately. -/
def chkThrows : CheckSpec :=
  { id := "fw1", title := "A", categories := ["security"], behavior := .panics 0 }

/-- C1 (code bug in the source): with checks `[A (panics), B (returns
Pass)]`, the dispatch loop does convert the panicking check into a synthetic
result and still collects B's result, in order — but `thread::scope` joins
the panicked worker thread when the scope ends and re-raises its panic, so
`run_all` itself panics and the collected results never reach the caller:
the panic does propagate past `run_all`. -/
theorem run_all_panic_not_isolated :
    runAll none [chkThrows, chkReturnsPass] = .panicked
    ∧ runAllResults none [chkThrows, chkReturnsPass] = [timeoutResult chkThrows, resB] := by
  constructor <;> rfl

/-- A concrete check whose `run` completes only after 100 seconds. -/
def chkSlow100 : CheckSpec :=
  { id := "slow", title := "S", categories := ["security"], behavior := .completes 100 resB }

/-- A concrete check whose `run` never returns. -/
def chkNever : CheckSpec :=
  { id := "never", title := "N", categories := ["security"], behavior := .hangs }

/-- C2 (code bug in the source): the engine's wall-clock time is not bounded
by `checks × timeout`.  The loop stops waiting after the 5-second budget,
but `thread::scope` joins every spawned thread before `run_all` returns: a
single check running 100 seconds keeps the engine busy for 100 seconds
(> 1 × 5), and a check that hangs forever makes `run_all` never return. -/
theorem run_all_time_not_bounded :
    engineElapsed none [chkSlow100] = some 100
    ∧ [chkSlow100].length * timeoutSecs < 100
    ∧ engineElapsed none [chkNever] = none
    ∧ runAll none [chkNever] = .diverges := by
  refine ⟨rfl, by decide, rfl, rfl⟩

/-- C3: a selected check whose `run` does not deliver a result within the
5-second budget contributes exactly one result, the synthetic one: status
Skip, reason stating the timeout duration, the fixed non-empty remediation
suggesting narrower category selection; any result the check later sends is
discarded (every collected result bearing its id is the synthetic one) and
the check is not re-attempted (exactly one result bears its id).  Assumes
checks return results carrying their own id (true of all registered checks)
and that the timed-out check's id is unique in the registry (the data-model
invariant). -/
theorem run_all_timeout_synthetic (filter : Option (List String)) (checks : List CheckSpec)
    (c : CheckSpec)
    (hids : ∀ c2 ∈ checks, ∀ d r, c2.behavior = .completes d r → r.id = c2.id)
    (hmem : c ∈ checks)
    (huniq : checks.countP (fun c2 => c2.id == c.id) = 1)
    (hsel : selectedBy filter c.categories = true)
    (hto : recvWithin timeoutSecs c.behavior = none) :
    (runAllResults filter checks).countP (fun r => r.id == c.id) = 1
    ∧ (∀ r ∈ runAllResults filter checks, r.id = c.id → r = timeoutResult c)
    ∧ (timeoutResult c).status = .skip
    ∧ (timeoutResult c).reason = "Check timed out after 5s"
    ∧ containsSub (timeoutResult c).reason (toString timeoutSecs) = true
    ∧ (timeoutResult c).remediation
        = some "Re-run with narrower categories or open an issue if this persists" := by
  have hspawn_sub : ∀ c2 ∈ spawnedChecks filter checks, c2 ∈ checks := by
    intro c2 hc2
    exact (List.mem_filter.mp hc2).1
  have hcount : (runAllResults filter checks).countP (fun r => r.id == c.id)
      = (spawnedChecks filter checks).countP (fun c2 => c2.id == c.id) := by
    rw [runAllResults_eq_map, List.countP_map]
    apply List.countP_congr
    intro c2 hc2
    have hid : (dispatchOne c2).id = c2.id :=
      dispatchOne_id c2 (hids c2 (hspawn_sub c2 hc2))
    simp [Function.comp, hid]
  have hcmem : c ∈ spawnedChecks filter checks := List.mem_filter.mpr ⟨hmem, hsel⟩
  have hge : 0 < (spawnedChecks filter checks).countP (fun c2 => c2.id == c.id) :=
    List.countP_pos_iff.mpr ⟨c, hcmem, by simp⟩
  have hle : (spawnedChecks filter checks).countP (fun c2 => c2.id == c.id)
      ≤ checks.countP (fun c2 => c2.id == c.id) :=
    countP_filter_le checks _ _
  have hone : (spawnedChecks filter checks).countP (fun c2 => c2.id == c.id) = 1 := by
    omega
  have hcont : containsSub ("Check timed out after " ++ toString timeoutSecs ++ "s")
      (toString timeoutSecs) = true := by decide
  refine ⟨by rw [hcount, hone], ?_, rfl, rfl, hcont, rfl⟩
  intro r hr hrid
  rw [runAllResults_eq_map] at hr
  rcases List.mem_map.mp hr with ⟨c2, hc2, rfl⟩
  have hid : (dispatchOne c2).id = c2.id :=
    dispatchOne_id c2 (hids c2 (hspawn_sub c2 hc2))
  have hc2id : c2.id = c.id := by rw [← hid, hrid]
  have hc2eq : c2 = c :=
    eq_of_countP_one checks (fun c3 => c3.id == c.id) huniq c2 c
      (hspawn_sub c2 hc2) hmem (by simp [hc2id]) (by simp)
  subst hc2eq
  unfold dispatchOne
  rw [hto]

/-- C3, witness: `run_all_timeout_synthetic` at the concrete registry
`[chkNever]` (a hanging check) with no filter. -/
theorem run_all_timeout_synthetic_witness :
    ((runAllResults none [chkNever]).countP (fun r => r.id == chkNever.id) = 1)
    ∧ (∀ r ∈ runAllResults none [chkNever], r.id = chkNever.id → r = timeoutResult chkNever)
    ∧ (timeoutResult chkNever).status = .skip
    ∧ (timeoutResult chkNever).reason = "Check timed out after 5s"
    ∧ containsSub (timeoutResult chkNever).reason (toString timeoutSecs) = true
    ∧ (timeoutResult chkNever).remediation
        = some "Re-run with narrower categories or open an issue if this persists" :=
  run_all_timeout_synthetic none [chkNever] chkNever
    (by
      intro c2 hc2 d r hb
      rw [List.mem_singleton] at hc2
      subst hc2
      simp [chkNever] at hb)
    (List.mem_singleton.mpr rfl) (by decide) (by decide) rfl

/-- C10: a present-but-empty category filter (`Some []`, reachable from the
CLI as `--categories ","` since empty fragments are dropped while the
`Option` is kept) selects no checks at all: the result list is empty, unlike
the filter-absent case. -/
theorem empty_filter_selects_nothing (checks : List CheckSpec) :
    (∀ cats : List String, selectedBy (some []) cats = false)
    ∧ runAllResults (some []) checks = []
    ∧ runAll (some []) checks = .returns []
    ∧ parseCategories (some ",") = some []
    ∧ selectedBy none [] = true := by
  have hsel : ∀ cats : List String, selectedBy (some []) cats = false := fun _ => rfl
  have hres : runAllResults (some []) checks = [] := by
    induction checks with
    | nil => rfl
    | cons c rest ih => simpa [runAllResults, hsel] using ih
  have hspawn : spawnedChecks (some []) checks = [] := by
    simpa [spawnedChecks, List.filter_eq_nil_iff] using fun c _ => by simp [hsel]
  refine ⟨hsel, hres, ?_, by decide, rfl⟩
  unfold runAll
  rw [hspawn, hres]
  rfl

/-! ## Claim C8: non-empty reasons -/

theorem len_append_left (s t : String) (h : 0 < s.length) : 0 < (s ++ t).length := by
  rw [String.length_append]
  omega

theorem timeoutResult_reason_pos (c : CheckSpec) : 0 < (timeoutResult c).reason.length := by
  unfold timeoutResult
  repeat' first
    | decide
    | apply len_append_left
    | split
    | dsimp only

theorem sshRoot_reason_pos (sshd : Option SshdConfigDump) :
    0 < (SshRootLoginCheck.run sshd).reason.length := by
  unfold SshRootLoginCheck.run
  repeat' first
    | decide
    | apply len_append_left
    | split
    | dsimp only

theorem sshPassword_reason_pos (sshd : Option SshdConfigDump) :
    0 < (SshPasswordAuthCheck.run sshd).reason.length := by
  unfold SshPasswordAuthCheck.run
  repeat' first
    | decide
    | apply len_append_left
    | split
    | dsimp only

theorem sshPort_reason_pos (sshd : Option SshdConfigDump) (f : Option String) :
    0 < (SshPortCheck.run sshd f).reason.length := by
  unfold SshPortCheck.run
  repeat' first
    | decide
    | apply len_append_left
    | split
    | dsimp only

theorem reboot_reason_pos (fe : List (String × Bool)) :
    0 < (RebootRequiredCheck.run fe).reason.length := by
  unfold RebootRequiredCheck.run
  repeat' first
    | decide
    | apply len_append_left
    | split
    | dsimp only

theorem disk_reason_pos (total avail : Nat) (pctS totalHuman availHuman : String) :
    0 < (DiskUsageCheck.run total avail pctS totalHuman availHuman).reason.length := by
  unfold DiskUsageCheck.run
  repeat' first
    | decide
    | apply len_append_left
    | split
    | dsimp only

theorem memory_reason_pos (mi : Option (Nat × Nat)) (ct : Nat) (pctS totalHuman availHuman : String) :
    0 < (MemoryUsageCheck.run mi ct pctS totalHuman availHuman).reason.length := by
  unfold MemoryUsageCheck.run
  repeat' first
    | decide
    | apply len_append_left
    | split
    | dsimp only

theorem cpu_reason_pos (load1 : Option Rat) (cores : Nat) (load1S ratioS : String) :
    0 < (CpuUsageCheck.run load1 cores load1S ratioS).reason.length := by
  unfold CpuUsageCheck.run
  repeat' first
    | decide
    | apply len_append_left
    | split
    | dsimp only

theorem sudo_reason_pos (sudoers : Option String) :
    0 < (SudoLoggingCheck.run sudoers).reason.length := by
  unfold SudoLoggingCheck.run
  repeat' first
    | decide
    | apply len_append_left
    | split
    | dsimp only

theorem pwpolicy_reason_pos (pwquality : Option String) :
    0 < (PasswordPolicyCheck.run pwquality).reason.length := by
  unfold PasswordPolicyCheck.run
  repeat' first
    | decide
    | apply len_append_left
    | split
    | dsimp only

theorem suid_reason_pos (suspicious visited : Nat) (eb : Bool) :
    0 < (SuidFilesCheck.run suspicious visited eb).reason.length := by
  unfold SuidFilesCheck.run
  repeat' first
    | decide
    | apply len_append_left
    | split
    | dsimp only

theorem ports_reason_pos (ports : List PortInfo) :
    0 < (ListeningPortsCheck.run ports).reason.length := by
  unfold ListeningPortsCheck.run
  repeat' first
    | decide
    | apply len_append_left
    | split
    | dsimp only

theorem firewall_reason_pos (b1 b2 b3 b4 b5 b6 b7 b8 : Bool) :
    0 < (FirewallPresenceCheck.run b1 b2 b3 b4 b5 b6 b7 b8).reason.length := by
  unfold FirewallPresenceCheck.run
  repeat' first
    | decide
    | apply len_append_left
    | split
    | dsimp only

theorem nftables_reason_pos (content : String) :
    0 < (NftablesRulesCheck.run content).reason.length := by
  unfold NftablesRulesCheck.run
  repeat' first
    | decide
    | apply len_append_left
    | split
    | dsimp only

/-- C8: every result produced by any of the thirteen registered checks, and
the engine's synthetic timeout result, carries a non-empty reason string,
over every possible input (every branch of every check); each result holds
exactly one `Status` by construction of the `CheckResult` type. -/
theorem results_reasons_nonempty :
    (∀ c : CheckSpec, 0 < (timeoutResult c).reason.length)
    ∧ (∀ sshd, 0 < (SshRootLoginCheck.run sshd).reason.length)
    ∧ (∀ sshd, 0 < (SshPasswordAuthCheck.run sshd).reason.length)
    ∧ (∀ sshd f, 0 < (SshPortCheck.run sshd f).reason.length)
    ∧ (∀ fe, 0 < (RebootRequiredCheck.run fe).reason.length)
    ∧ (∀ t a pS tH aH, 0 < (DiskUsageCheck.run t a pS tH aH).reason.length)
    ∧ (∀ mi ct pS tH aH, 0 < (MemoryUsageCheck.run mi ct pS tH aH).reason.length)
    ∧ (∀ l cr lS rS, 0 < (CpuUsageCheck.run l cr lS rS).reason.length)
    ∧ (∀ s, 0 < (SudoLoggingCheck.run s).reason.length)
    ∧ (∀ s, 0 < (PasswordPolicyCheck.run s).reason.length)
    ∧ (∀ su vi eb, 0 < (SuidFilesCheck.run su vi eb).reason.length)
    ∧ (∀ ps, 0 < (ListeningPortsCheck.run ps).reason.length)
    ∧ (∀ b1 b2 b3 b4 b5 b6 b7 b8,
        0 < (FirewallPresenceCheck.run b1 b2 b3 b4 b5 b6 b7 b8).reason.length)
    ∧ (∀ content, 0 < (NftablesRulesCheck.run content).reason.length) :=
  ⟨timeoutResult_reason_pos, sshRoot_reason_pos, sshPassword_reason_pos,
   sshPort_reason_pos, reboot_reason_pos, disk_reason_pos, memory_reason_pos,
   cpu_reason_pos, sudo_reason_pos, pwpolicy_reason_pos, suid_reason_pos,
   ports_reason_pos, firewall_reason_pos, nftables_reason_pos⟩

/-! ## Claim C7: process exit codes -/

theorem is_fail_iff (s : Status) : s.is_fail = true ↔ s = .fail := by
  cases s <;> simp [Status.is_fail]

theorem is_warn_iff (s : Status) : s.is_warn = true ↔ s = .warn := by
  cases s <;> simp [Status.is_warn]

/-- C7, counterexample: without `--strict` the process exits 0 even when a
result is Fail — indistinguishable from a clean run — so the exit code does
not, in general, distinguish the aggregate outcomes as claimed. -/
theorem exit_code_without_strict_is_zero :
    exitCode false [mkRes .fail] = 0 ∧ exitCode false [] = 0 := by
  constructor <;> rfl

/-- C7, amended: only under `--strict` does the exit code distinguish the
three aggregate outcomes: any Fail exits 2; Warn but no Fail exits 1; all
Pass/Skip exits 0 (2, 1, 0 pairwise distinct).  Without `--strict` the
process always exits 0. -/
theorem exit_code_strict_spec (results : List CheckResult) :
    ((∃ r ∈ results, r.status = .fail) → exitCode true results = 2)
    ∧ ((¬∃ r ∈ results, r.status = .fail) → (∃ r ∈ results, r.status = .warn) →
        exitCode true results = 1)
    ∧ ((∀ r ∈ results, r.status = .pass ∨ r.status = .skip) → exitCode true results = 0)
    ∧ exitCode false results = 0 := by
  refine ⟨?_, ?_, ?_, rfl⟩
  · rintro ⟨r, hr, hf⟩
    have hany : results.any (fun r => r.status.is_fail) = true :=
      List.any_eq_true.mpr ⟨r, hr, (is_fail_iff r.status).mpr hf⟩
    simp [exitCode, hany]
  · intro hnf hw
    have hanyf : results.any (fun r => r.status.is_fail) = false := by
      rw [List.any_eq_false]
      intro r hr
      rw [Bool.not_eq_true, ← Bool.not_eq_true]
      intro hf
      exact hnf ⟨r, hr, (is_fail_iff r.status).mp hf⟩
    rcases hw with ⟨r, hr, hwr⟩
    have hanyw : results.any (fun r => r.status.is_warn) = true :=
      List.any_eq_true.mpr ⟨r, hr, (is_warn_iff r.status).mpr hwr⟩
    simp [exitCode, hanyf, hanyw]
  · intro hall
    have hanyf : results.any (fun r => r.status.is_fail) = false := by
      rw [List.any_eq_false]
      intro r hr
      rcases hall r hr with h | h <;> simp [h, Status.is_fail]
    have hanyw : results.any (fun r => r.status.is_warn) = false := by
      rw [List.any_eq_false]
      intro r hr
      rcases hall r hr with h | h <;> simp [h, Status.is_warn]
    simp [exitCode, hanyf, hanyw]

/-- C7, witness: `exit_code_strict_spec` at the three concrete singleton
runs, giving the three distinct exit codes 2, 1, 0. -/
theorem exit_code_strict_spec_witness :
    exitCode true [mkRes .fail] = 2
    ∧ exitCode true [mkRes .warn] = 1
    ∧ exitCode true [mkRes .pass, mkRes .skip] = 0 :=
  ⟨(exit_code_strict_spec [mkRes .fail]).1 ⟨mkRes .fail, by simp, rfl⟩,
   (exit_code_strict_spec [mkRes .warn]).2.1 (by simp [mkRes]) ⟨mkRes .warn, by simp, rfl⟩,
   (exit_code_strict_spec [mkRes .pass, mkRes .skip]).2.2.1 (by simp [mkRes])⟩

end VpsAudit
